import Mathlib

/-!
Verification development for the Snowpatrol behavior-intelligence dashboard
(`src/streamlit_app.py`).  The heart of the program is the streaming
agent-response decoder `parse_and_display_response`; we give a shallow
embedding of it, of the surrounding chat send/rollback flow, and of the
context injector, and prove the specification's testable properties
against the embedding.

Python values flowing through the decoder are modelled by the inductive
type `PyJson` (ints model JSON numbers; the embedded `jsonParse` model of
`json.loads` covers the integer/string/bool/null/array/object fragment of
JSON, which is the fragment exercised by the program's event protocol).
Python strings are modelled as `List Char` at the framing layer so that
splitting on the SSE record separator is fully transparent to proofs.
-/

set_option maxRecDepth 10000

/-- A Python/JSON value as manipulated by the decoder. -/
inductive PyJson where
  | null : PyJson
  | bool (b : Bool) : PyJson
  | num (n : Int) : PyJson
  | str (s : String) : PyJson
  | arr (xs : List PyJson) : PyJson
  | obj (fields : List (String × PyJson)) : PyJson

namespace PyJson

/-- `d.get(k)` on a Python dict (`None`-as-`none`); last binding wins,
matching dict construction by successive insertion.  Non-dicts have no
keys. -/
def getKey : PyJson → String → Option PyJson
  | .obj fs, k => fs.foldl (fun acc p => if p.1 = k then some p.2 else acc) none
  | _, _ => none

/-- `isinstance(v, dict)`. -/
def isObj : PyJson → Bool
  | .obj _ => true
  | _ => false

end PyJson

/-- Python truthiness (`if v:`). -/
def pyTruthy : PyJson → Bool
  | .null => false
  | .bool b => b
  | .num n => n != 0
  | .str s => s != ""
  | .arr xs => !xs.isEmpty
  | .obj fs => !fs.isEmpty

/-- Python `+` on the values the decoder can reach; raises `TypeError`
for mixed/unsupported operand types exactly where CPython does. -/
def pyAdd (a b : PyJson) : Except String PyJson :=
  match a, b with
  | .str x, .str y => .ok (.str (x ++ y))
  | .num x, .num y => .ok (.num (x + y))
  | .num x, .bool y => .ok (.num (x + (if y then 1 else 0)))
  | .bool x, .num y => .ok (.num ((if x then 1 else 0) + y))
  | .bool x, .bool y => .ok (.num ((if x then 1 else 0) + (if y then 1 else 0)))
  | .arr x, .arr y => .ok (.arr (x ++ y))
  | _, _ => .error "TypeError: unsupported operand types for +"

/-- Python `for x in v:` — lists iterate elements, strings iterate
1-character strings, dicts iterate keys, everything else raises. -/
def pyIter : PyJson → Except String (List PyJson)
  | .arr xs => .ok xs
  | .str s => .ok (s.data.map (fun c => .str ⟨[c]⟩))
  | .obj fs => .ok (fs.map (fun p => .str p.1))
  | _ => .error "TypeError: object is not iterable"

example : pyTruthy (.str "") = false := rfl
example : pyTruthy (.str "a") = true := rfl
example : PyJson.getKey (.obj [("a", .num 1), ("a", .num 2)]) "a" = some (.num 2) := rfl
example : pyAdd (.str "ab") (.str "cd") = .ok (.str "abcd") := rfl
example : pyAdd (.str "ab") (.num 5) = .error "TypeError: unsupported operand types for +" := rfl

/-! ### A model of `json.loads`

Fuel-indexed recursive-descent parser over the character list, producing a
`PyJson`.  Covers objects, arrays, strings (with the single-character
escapes), integers, booleans and null; the whole input must be consumed up
to trailing whitespace, matching `json.loads` returning a value versus
raising `JSONDecodeError`. -/

/-- The JSON whitespace characters (those `json.loads` skips). -/
def isJsonWs (c : Char) : Bool := c = ' ' || c = '\t' || c = '\n' || c = '\r'

/-- Skip leading JSON whitespace. -/
def skipWs (xs : List Char) : List Char := xs.dropWhile isJsonWs

/-- Decode one string escape character (the self-representing escapes
first, then the control-character ones). -/
def escChar (e : Char) : Option Char :=
  if e = '"' || e = '\\' || e = '/' then some e
  else if e = 'n' then some '\n'
  else if e = 't' then some '\t'
  else if e = 'r' then some '\r'
  else if e = 'b' then some '\x08'
  else if e = 'f' then some '\x0c'
  else none

/-- Parse the body of a JSON string after the opening quote, returning the
characters and the remainder after the closing quote. -/
def parseStrBody : List Char → Option (List Char × List Char)
  | [] => none
  | '"' :: rest => some ([], rest)
  | '\\' :: e :: rest =>
    match escChar e with
    | some c => (parseStrBody rest).map (fun p => (c :: p.1, p.2))
    | none => none
  | c :: rest => (parseStrBody rest).map (fun p => (c :: p.1, p.2))

/-- Numeric value of a digit list. -/
def natOfDigits (ds : List Char) : Nat := ds.foldl (fun a c => a * 10 + (c.toNat - 48)) 0

mutual

/-- Parse one JSON value, returning it and the unconsumed remainder. -/
def parseVal (fuel : Nat) (input : List Char) : Option (PyJson × List Char) :=
  match fuel with
  | 0 => none
  | f + 1 =>
    match skipWs input with
    | [] => none
    | 'n' :: rest => if ['u', 'l', 'l'].isPrefixOf rest then some (.null, rest.drop 3) else none
    | 't' :: rest => if ['r', 'u', 'e'].isPrefixOf rest then some (.bool true, rest.drop 3) else none
    | 'f' :: rest =>
      if ['a', 'l', 's', 'e'].isPrefixOf rest then some (.bool false, rest.drop 4) else none
    | '"' :: rest => (parseStrBody rest).map (fun p => (.str ⟨p.1⟩, p.2))
    | '[' :: rest =>
      match skipWs rest with
      | ']' :: rest2 => some (.arr [], rest2)
      | other => (parseArrItems f other).map (fun p => (.arr p.1, p.2))
    | '\x7b' :: rest =>
      match skipWs rest with
      | '\x7d' :: rest2 => some (.obj [], rest2)
      | other => (parseObjItems f other).map (fun p => (.obj p.1, p.2))
    | '-' :: rest =>
      let ds := rest.takeWhile Char.isDigit
      if ds.isEmpty then none
      else some (.num (-(natOfDigits ds : Int)), rest.dropWhile Char.isDigit)
    | c :: rest =>
      if c.isDigit then
        let ds := (c :: rest).takeWhile Char.isDigit
        some (.num (natOfDigits ds), (c :: rest).dropWhile Char.isDigit)
      else none

/-- Parse the comma-separated items of an array (first item onward). -/
def parseArrItems (fuel : Nat) (input : List Char) : Option (List PyJson × List Char) :=
  match fuel with
  | 0 => none
  | f + 1 =>
    match parseVal f input with
    | none => none
    | some (v, rest) =>
      match skipWs rest with
      | ',' :: rest2 => (parseArrItems f rest2).map (fun p => (v :: p.1, p.2))
      | ']' :: rest2 => some ([v], rest2)
      | _ => none

/-- Parse the comma-separated members of an object (first member onward). -/
def parseObjItems (fuel : Nat) (input : List Char) :
    Option (List (String × PyJson) × List Char) :=
  match fuel with
  | 0 => none
  | f + 1 =>
    match skipWs input with
    | '"' :: rest =>
      match parseStrBody rest with
      | none => none
      | some (key, rest2) =>
        match skipWs rest2 with
        | ':' :: rest3 =>
          match parseVal f rest3 with
          | none => none
          | some (v, rest4) =>
            match skipWs rest4 with
            | ',' :: rest5 => (parseObjItems f rest5).map (fun p => ((⟨key⟩, v) :: p.1, p.2))
            | '\x7d' :: rest5 => some ([(⟨key⟩, v)], rest5)
            | _ => none
        | _ => none
    | _ => none

end

/-- `json.loads`: parse the whole input as one JSON value (trailing
whitespace allowed), `none` on `JSONDecodeError`. -/
def jsonParse (input : List Char) : Option PyJson :=
  match parseVal (2 * input.length + 4) input with
  | some (v, rest) => if (skipWs rest).isEmpty then some v else none
  | none => none

example : jsonParse "null".data = some .null := rfl
example : jsonParse "[1, 2]".data = some (.arr [.num 1, .num 2]) := rfl
example : jsonParse "\x7b\"a\": \"b\"\x7d".data = some (.obj [("a", .str "b")]) := rfl
example : jsonParse "".data = none := rfl
example : jsonParse "[DONE]".data = none := rfl
example : jsonParse " -12 ".data = some (.num (-12)) := rfl
example : jsonParse "\x7b\"a\": [true, null, \x7b\x7d]\x7d".data
    = some (.obj [("a", .arr [.bool true, .null, .obj []])]) := rfl

/-! ### Stage 1 — SSE event framing

`raw_content.split("\n\n")`, the `data:` prefix test, `str.strip()`, the
`[DONE]` sentinel, and the per-chunk `json.loads` with silent discard. -/

/-- Python's `str.split("\n\n")` (the separator of the source, hardcoded):
leftmost, non-overlapping, keeping empty pieces. -/
def splitBlank : List Char → List (List Char)
  | [] => [[]]
  | [c] => [[c]]
  | c :: d :: rest =>
    if c = '\n' ∧ d = '\n' then [] :: splitBlank rest
    else
      match splitBlank (d :: rest) with
      | g :: gs => (c :: g) :: gs
      | [] => [[c]]

/-- `"\n\n".join(...)` — inverse framing used to state round-trip
properties. -/
def joinBlank : List (List Char) → List Char
  | [] => []
  | [c] => c
  | c :: rest => c ++ '\n' :: '\n' :: joinBlank rest

/-- Whether the chunk contains the record separator `"\n\n"`. -/
def containsBlank : List Char → Bool
  | [] => false
  | [_] => false
  | c :: d :: rest => (c = '\n' && d = '\n') || containsBlank (d :: rest)

/-- Whether the chunk ends in a newline (which would merge with a
following record separator). -/
def endsNL : List Char → Bool
  | [] => false
  | [c] => c = '\n'
  | _ :: d :: rest => endsNL (d :: rest)

/-- The whitespace characters stripped by Python's `str.strip()`. -/
def isPySpace (c : Char) : Bool :=
  c = ' ' || c = '\t' || c = '\n' || c = '\r' || c = '\x0b' || c = '\x0c'

/-- Python `str.strip()`. -/
def pyStrip (xs : List Char) : List Char :=
  ((xs.dropWhile isPySpace).reverse.dropWhile isPySpace).reverse

/-- The `data:` field prefix tested by `chunk.startswith("data:")`. -/
def dataColon : List Char := ['d', 'a', 't', 'a', ':']

/-- The stream-terminator sentinel `[DONE]`. -/
def doneChars : List Char := ['[', 'D', 'O', 'N', 'E', ']']

/-- One iteration of the Stage-1 loop: `none` when the chunk is discarded
(no `data:` prefix, empty payload, `[DONE]`, or unparsable payload). -/
def chunkEvent (chunk : List Char) : Option PyJson :=
  if dataColon.isPrefixOf chunk then
    let payload := pyStrip (chunk.drop 5)
    if payload ≠ [] ∧ payload ≠ doneChars then jsonParse payload else none
  else none

/-- Stage 1: the event list collected from the SSE-framed body. -/
def sseEvents (raw : List Char) : List PyJson := (splitBlank raw).filterMap chunkEvent

example : splitBlank "a\n\nb".data = ["a".data, "b".data] := rfl
example : splitBlank "\n\n\n".data = [[], ['\n']] := rfl
example : splitBlank "".data = [[]] := rfl
example : pyStrip "  x y\n".data = "x y".data := rfl
example : chunkEvent "data: [DONE]".data = none := rfl
example : chunkEvent "data: 17".data = some (.num 17) := rfl
example : chunkEvent "data:".data = none := rfl
example : chunkEvent "nope: 17".data = none := rfl
example : sseEvents "data: 1\n\njunk\n\ndata: 2".data = [.num 1, .num 2] := rfl

/-! ### Stage 3 — event interpretation

The per-event accumulate/replace rules of `parse_and_display_response`,
lines 154–222.  The buffer is a Python value (initially `""`); appends go
through `pyAdd`, which raises `TypeError` exactly where `full_text += x`
would, and the whole walk is an `Except` computation because an exception
aborts the loop (it is caught by the function's outer handler). -/

/-- One `message.delta` content item (lines 183–192): append the `text`
field of `text`-typed items, skip everything else. -/
def processContentItem (buf : PyJson) (item : PyJson) : Except String PyJson :=
  match item with
  | .obj _ =>
    match item.getKey "type" with
    | some (.str t) =>
      if t = "text" then
        let tc := (item.getKey "text").getD (.str "")
        if pyTruthy tc then pyAdd buf tc else .ok buf
      else .ok buf
    | _ => .ok buf
  | _ => .ok buf

/-- The `for content_item in content_array` loop of the `message.delta`
branch. -/
def foldContentItems (buf : PyJson) : List PyJson → Except String PyJson
  | [] => .ok buf
  | it :: rest =>
    match processContentItem buf it with
    | .ok b => foldContentItems b rest
    | .error e => .error e

/-- One `response` content item (lines 200–204): replace the buffer with
the `text` field of `text`-typed items (assignment — never raises). -/
def processResponseItem (buf : PyJson) (item : PyJson) : PyJson :=
  match item with
  | .obj _ =>
    match item.getKey "type" with
    | some (.str t) =>
      if t = "text" then
        let tc := (item.getKey "text").getD (.str "")
        if pyTruthy tc then tc else buf
      else buf
    | _ => buf
  | _ => buf

/-- The `for item in content` loop of the `response` branch. -/
def foldRespItems (buf : PyJson) : List PyJson → PyJson
  | [] => buf
  | it :: rest => foldRespItems (processResponseItem buf it) rest

/-- One legacy `choices` entry (lines 209–216): append `delta.content` if
present, else a direct `content` field if present. -/
def processChoice (buf : PyJson) (choice : PyJson) : Except String PyJson :=
  match choice with
  | .obj _ =>
    match (choice.getKey "delta").getD (.obj []) with
    | .obj dfs =>
      match PyJson.getKey (.obj dfs) "content" with
      | some v => pyAdd buf v
      | none =>
        match choice.getKey "content" with
        | some v => pyAdd buf v
        | none => .ok buf
    | _ =>
      match choice.getKey "content" with
      | some v => pyAdd buf v
      | none => .ok buf
  | _ => .ok buf

/-- The `for choice in choices` loop of the legacy branch. -/
def foldChoices (buf : PyJson) : List PyJson → Except String PyJson
  | [] => .ok buf
  | c :: rest =>
    match processChoice buf c with
    | .ok b => foldChoices b rest
    | .error e => .error e

/-- `response.text.delta` branch (lines 160–165): append `data.text` when
truthy. -/
def stepDelta (buf ev : PyJson) : Except String PyJson :=
  match (ev.getKey "data").getD (.obj []) with
  | .obj dfs =>
    let text := (PyJson.getKey (.obj dfs) "text").getD (.str "")
    if pyTruthy text then pyAdd buf text else .ok buf
  | _ => .ok buf

/-- `response.text` branch (lines 168–173): replace the buffer with
`data.text` when truthy. -/
def stepReplace (buf ev : PyJson) : PyJson :=
  match (ev.getKey "data").getD (.obj []) with
  | .obj dfs =>
    let text := (PyJson.getKey (.obj dfs) "text").getD (.str "")
    if pyTruthy text then text else buf
  | _ => buf

/-- `message.delta` branch (lines 176–192): descend into
`data.delta.content`. -/
def stepMsgDelta (buf ev : PyJson) : Except String PyJson :=
  match (ev.getKey "data").getD (.obj []) with
  | .obj dfs =>
    match (PyJson.getKey (.obj dfs) "delta").getD (.obj []) with
    | .obj efs =>
      match (PyJson.getKey (.obj efs) "content").getD (.arr []) with
      | .arr items => foldContentItems buf items
      | _ => .ok buf
    | _ => .ok buf
  | _ => .ok buf

/-- `response` branch (lines 195–204): descend into `data.content`. -/
def stepResponse (buf ev : PyJson) : PyJson :=
  match (ev.getKey "data").getD (.obj []) with
  | .obj dfs =>
    match (PyJson.getKey (.obj dfs) "content").getD (.arr []) with
    | .arr items => foldRespItems buf items
    | _ => buf
  | _ => buf

/-- Line 208: `ev.get("data", ev).get("choices", []) if
isinstance(ev.get("data", ev), dict) else []`. -/
def legacyChoices (ev : PyJson) : PyJson :=
  match (ev.getKey "data").getD ev with
  | .obj dfs => (PyJson.getKey (.obj dfs) "choices").getD (.arr [])
  | _ => .arr []

/-- Legacy/fallthrough branch (lines 207–222): OpenAI-style `choices`
(possibly under `data`), then a direct top-level string `content`. -/
def legacyStep (buf ev : PyJson) : Except String PyJson :=
  match pyIter (legacyChoices ev) with
  | .error e => .error e
  | .ok cl =>
    match foldChoices buf cl with
    | .error e => .error e
    | .ok b1 =>
      match ev.getKey "content" with
      | some (.str s) => pyAdd b1 (.str s)
      | _ => .ok b1

/-- The `if/elif` chain on `ev.get("event")` (lines 160–207). -/
def dispatchEvent (k : String) (buf ev : PyJson) : Except String PyJson :=
  if k = "response.text.delta" then stepDelta buf ev
  else if k = "response.text" then .ok (stepReplace buf ev)
  else if k = "message.delta" then stepMsgDelta buf ev
  else if k = "response" then .ok (stepResponse buf ev)
  else legacyStep buf ev

/-- One iteration of the Stage-3 `for ev in events` loop. -/
def stepEvent (buf ev : PyJson) : Except String PyJson :=
  match ev with
  | .obj _ =>
    match ev.getKey "event" with
    | some (.str k) => dispatchEvent k buf ev
    | _ => legacyStep buf ev
  | _ => .ok buf

/-- Stage 3 from a given buffer. -/
def runEventsFrom (buf : PyJson) : List PyJson → Except String PyJson
  | [] => .ok buf
  | ev :: rest =>
    match stepEvent buf ev with
    | .ok b => runEventsFrom b rest
    | .error e => .error e

/-- Stage 3 from the initial empty buffer (`full_text = ""`). -/
def runEvents (events : List PyJson) : Except String PyJson := runEventsFrom (.str "") events

/-! ### Stages 2 and 4 — fallback framing, finalization, history -/

/-- Stage-2 wrapping: a parsed non-list body becomes a one-element event
list (lines 146–148). -/
def asEventList : PyJson → List PyJson
  | .arr xs => xs
  | v => [v]

/-- The observable outcome of `parse_and_display_response`. -/
inductive Outcome where
  | decodeFailure : Outcome
  | caughtError (msg : String) : Outcome
  | noText (events : List PyJson) : Outcome
  | text (t : PyJson) : Outcome

/-- Stage 3 + Stage 4 on an event list: run the walk, catch any exception
(outer `except`), and split on `if full_text:`. -/
def finalizeEvents (events : List PyJson) : Outcome :=
  match runEvents events with
  | .error e => .caughtError e
  | .ok buf => if pyTruthy buf then .text buf else .noText events

/-- The full decoder on a raw body: Stage 1, the Stage-2 fallback (with
its distinct parse-failure outcome), then Stages 3–4. -/
def decodeBody (raw : List Char) : Outcome :=
  match sseEvents raw with
  | [] =>
    match jsonParse raw with
    | none => .decodeFailure
    | some v => finalizeEvents (asEventList v)
  | e :: es => finalizeEvents (e :: es)

/-- A user message as appended by `render_chat_interface` (lines 269–272). -/
def mkUserMessage (text : String) : PyJson :=
  .obj [("role", .str "user"), ("content", .arr [.obj [("type", .str "text"), ("text", .str text)]])]

/-- The assistant message appended on a successful decode (lines 227–231). -/
def mkAssistantMessage (t : PyJson) : PyJson :=
  .obj [("role", .str "assistant"),
        ("content", .arr [.obj [("type", .str "text"), ("text", t)]])]

/-- `parse_and_display_response` as a whole: the outcome plus the message
history after it (the history grows only on a text outcome). -/
def parse_and_display_response (raw : List Char) (hist : List PyJson) :
    Outcome × List PyJson :=
  match decodeBody raw with
  | .text t => (.text t, hist ++ [mkAssistantMessage t])
  | o => (o, hist)

/-! ### `agent_run` and the chat send flow -/

/-- The dict returned by `_snowflake.send_snow_api_request`. -/
structure ApiResponse where
  status : Int
  reason : String
  content : String

/-- `agent_run` (lines 101–124): raise on any non-200 status, otherwise
hand back the response. -/
def agent_run (resp : ApiResponse) : Except String ApiResponse :=
  if resp.status ≠ 200 then
    .error ("Cortex HTTP " ++ toString resp.status ++ " – Status: " ++ toString resp.status)
  else .ok resp

/-- The send path of `render_chat_interface` (lines 266–283): append the
user message, call the agent, decode on success, pop the pending user
message on failure. -/
def render_chat_interface_send (hist : List PyJson) (contextMessage : String)
    (resp : ApiResponse) : List PyJson × Option Outcome :=
  let hist1 := hist ++ [mkUserMessage contextMessage]
  match agent_run resp with
  | .error _ => (if hist1.isEmpty then hist1 else hist1.dropLast, none)
  | .ok r =>
    let res := parse_and_display_response r.content.data hist1
    (res.2, some res.1)

example :
    decodeBody "data: \x7b\"event\": \"response.text.delta\", \"data\": \x7b\"text\": \"hi\"\x7d\x7d".data
      = .text (.str "hi") := rfl
example : decodeBody "garbage".data = .decodeFailure := rfl
example : decodeBody "[\x7b\"event\": \"other\"\x7d]".data = .noText [.obj [("event", .str "other")]] := rfl
example : decodeBody "\x7b\"choices\": [\x7b\"delta\": \x7b\"content\": \"ok\"\x7d\x7d]\x7d".data
    = .text (.str "ok") := rfl

/-! ### Dates and the context injector -/

/-- A `datetime.date`. -/
structure PyDate where
  year : Int
  month : Nat
  day : Nat

/-- Proleptic-Gregorian day number (the civil-from-days algorithm), so
that `(a - b).days = rataDie a - rataDie b`. -/
def rataDie (d : PyDate) : Int :=
  let y : Int := if d.month ≤ 2 then d.year - 1 else d.year
  let era : Int := Int.fdiv y 400
  let yoe : Int := y - era * 400
  let mp : Int := (Int.ofNat d.month + 9) % 12
  let doy : Int := Int.fdiv (153 * mp + 2) 5 + Int.ofNat d.day - 1
  let doe : Int := yoe * 365 + Int.fdiv yoe 4 - Int.fdiv yoe 100 + doy
  era * 146097 + doe - 719468

/-- `(a - b).days` for two dates. -/
def dateDiffDays (a b : PyDate) : Int := rataDie a - rataDie b

/-- Line 80: `days_selected = (end_date - start_date).days + 1`. -/
def days_selected (start_date end_date : PyDate) : Int :=
  dateDiffDays end_date start_date + 1

/-- `%b`: abbreviated month name. -/
def monthAbbrev : Nat → String
  | 1 => "Jan"
  | 2 => "Feb"
  | 3 => "Mar"
  | 4 => "Apr"
  | 5 => "May"
  | 6 => "Jun"
  | 7 => "Jul"
  | 8 => "Aug"
  | 9 => "Sep"
  | 10 => "Oct"
  | 11 => "Nov"
  | 12 => "Dec"
  | _ => ""

/-- `%d`: zero-padded day of month. -/
def pad2 (n : Nat) : String := if n < 10 then "0" ++ toString n else toString n

/-- `d.strftime('%b %d, %Y')`. -/
def strftimeBdY (d : PyDate) : String :=
  monthAbbrev d.month ++ " " ++ pad2 d.day ++ ", " ++ toString d.year

/-- `inject_context_into_message` (lines 90–99), with the module globals
`start_date`, `end_date` (and `days_selected` derived from them) passed
explicitly. -/
def inject_context_into_message (user_message page_context data_summary : String)
    (start_date end_date : PyDate) : String :=
  "**Context**: You are viewing the " ++ page_context ++ " dashboard page.\n**Date Range**: "
    ++ strftimeBdY start_date ++ " to " ++ strftimeBdY end_date ++ " ("
    ++ toString (days_selected start_date end_date) ++ " days selected)\n\n**Current Data Summary**:\n"
    ++ data_summary ++ "\n\n**User Question**: " ++ user_message ++ "\n"

/-! ### Event constructors used in claim statements

These build the wire shapes of the protocol (§4.4 of the spec) as `PyJson`
values. -/

/-- A `text`-typed content item. -/
def mkTextItem (t : String) : PyJson :=
  .obj [("type", .str "text"), ("text", .str t)]

/-- A `tool_use`/`tool_results`-style content item. -/
def mkToolItem (ty : String) : PyJson := .obj [("type", .str ty)]

/-- A `response.text.delta` event carrying `data.text`. -/
def mkDeltaEv (t : String) : PyJson :=
  .obj [("event", .str "response.text.delta"), ("data", .obj [("text", .str t)])]

/-- A `response.text` (complete-text snapshot) event. -/
def mkRespTextEv (t : String) : PyJson :=
  .obj [("event", .str "response.text"), ("data", .obj [("text", .str t)])]

/-- A `message.delta` event with the given `data.delta.content` items. -/
def mkMsgDeltaEv (items : List PyJson) : PyJson :=
  .obj [("event", .str "message.delta"),
        ("data", .obj [("delta", .obj [("content", .arr items)])])]

/-- A `response` event with the given `data.content` items. -/
def mkRespEv (items : List PyJson) : PyJson :=
  .obj [("event", .str "response"), ("data", .obj [("content", .arr items)])]

/-- Whether a `message.delta` content item is a tool block. -/
def isToolItem (item : PyJson) : Bool :=
  match item with
  | .obj _ =>
    match item.getKey "type" with
    | some (.str t) => t = "tool_use" || t = "tool_results"
    | _ => false
  | _ => false

/-- Concatenation of a list of text fragments. -/
def joinTexts : List String → String
  | [] => ""
  | t :: ts => t ++ joinTexts ts

example : rataDie ⟨2025, 9, 18⟩ - rataDie ⟨2025, 8, 18⟩ = 31 := rfl
example : days_selected ⟨2025, 8, 18⟩ ⟨2025, 9, 18⟩ = 32 := rfl
example : strftimeBdY ⟨2025, 8, 18⟩ = "Aug 18, 2025" := rfl
example : strftimeBdY ⟨2025, 9, 5⟩ = "Sep 05, 2025" := rfl
example : rataDie ⟨1970, 1, 1⟩ = 0 := rfl
example : rataDie ⟨2000, 3, 1⟩ = 11017 := rfl

/-! ## Supporting lemmas -/

theorem pyTruthy_str_of_ne (s : String) (h : s ≠ "") : pyTruthy (.str s) = true := by
  simp [pyTruthy, h]

theorem pyTruthy_str_empty : pyTruthy (.str "") = false := rfl

/-- `response` items: the last item carrying non-empty text wins. -/
theorem foldRespItems_last_wins (ts : List String) (t : String) (h : t ≠ "") :
    ∀ buf : PyJson, foldRespItems buf ((ts ++ [t]).map mkTextItem) = .str t := by
  induction ts with
  | nil =>
    intro buf
    show foldRespItems (processResponseItem buf (mkTextItem t)) [] = .str t
    have hp : processResponseItem buf (mkTextItem t) = .str t := by
      show (if pyTruthy (.str t) then PyJson.str t else buf) = .str t
      rw [pyTruthy_str_of_ne t h, if_pos rfl]
    rw [hp]
    rfl
  | cons x ts ih =>
    intro buf
    show foldRespItems (processResponseItem buf (mkTextItem x)) ((ts ++ [t]).map mkTextItem)
      = .str t
    exact ih _

/-! ## C1 -/

/-- C1 (amended): a `response.text` event with non-empty `data.text`
replaces the buffer with that text, whatever was accumulated before; and
the event list delta "Hel", delta "lo", `response.text` "Goodbye" decodes
to exactly "Goodbye". -/
theorem c1_response_text_replaces (buf : PyJson) (s : String) (h : s ≠ "") :
    stepEvent buf (mkRespTextEv s) = .ok (.str s)
    ∧ runEvents [mkDeltaEv "Hel", mkDeltaEv "lo", mkRespTextEv "Goodbye"]
        = .ok (.str "Goodbye") := by
  constructor
  · show Except.ok (if pyTruthy (.str s) then PyJson.str s else buf) = .ok (.str s)
    rw [pyTruthy_str_of_ne s h, if_pos rfl]
  · rfl

/-- C1 witness: the replacement theorem applied at a concrete buffer and
payload. -/
theorem c1_response_text_replaces_witness :
    stepEvent (.str "Hel") (mkRespTextEv "Z") = .ok (.str "Z") :=
  (c1_response_text_replaces (.str "Hel") "Z" (by decide)).1

/-- C1 counterexample: a `response.text` event whose `data.text` is the
empty string does not replace the buffer — the decoded text stays "Hel",
not the event's `data.text` value "". -/
theorem c1_empty_snapshot_counterexample :
    runEvents [mkDeltaEv "Hel", mkRespTextEv ""] = .ok (.str "Hel")
    ∧ ("Hel" : String) ≠ "" := ⟨rfl, by decide⟩

/-! ## C4 -/

/-- C4 (amended): in a `response` event whose `data.content` text items
end with a non-empty text, the final buffer is that last text (each
non-empty text item overwrites the buffer; empty-text items are
skipped). -/
theorem c4_response_last_text_wins (buf : PyJson) (ts : List String) (t : String)
    (h : t ≠ "") :
    stepEvent buf (mkRespEv ((ts ++ [t]).map mkTextItem)) = .ok (.str t) := by
  show Except.ok (foldRespItems buf ((ts ++ [t]).map mkTextItem)) = .ok (.str t)
  rw [foldRespItems_last_wins ts t h buf]

/-- C4 witness: two text items "A" then "C" — the buffer ends as "C". -/
theorem c4_response_last_text_wins_witness :
    stepEvent (.str "B") (mkRespEv ((["A"] ++ ["C"]).map mkTextItem)) = .ok (.str "C") :=
  c4_response_last_text_wins (.str "B") ["A"] "C" (by decide)

/-- C4 counterexample: with text items "A" then "" the final buffer is
"A", not the `text` field of the last text item (which is ""). -/
theorem c4_last_empty_item_counterexample :
    stepEvent (.str "") (mkRespEv [mkTextItem "A", mkTextItem ""]) = .ok (.str "A")
    ∧ ("A" : String) ≠ "" := ⟨rfl, by decide⟩

/-! ## C7 -/

/-- C7: when the agent call fails with a non-200 status, the history is
exactly what it was before the send — the pending user message is popped
again. -/
theorem c7_agent_error_rollback (hist : List PyJson) (contextMessage : String)
    (resp : ApiResponse) (h : resp.status ≠ 200) :
    (render_chat_interface_send hist contextMessage resp).1 = hist := by
  unfold render_chat_interface_send agent_run
  rw [if_pos h]
  simp [List.dropLast_concat]

/-- C7 witness: a 404 response leaves an initially empty history empty. -/
theorem c7_agent_error_rollback_witness :
    (render_chat_interface_send [] "question" ⟨404, "Not Found", "x"⟩).1 = [] :=
  c7_agent_error_rollback [] "question" ⟨404, "Not Found", "x"⟩ (by decide)

/-! ## C8 -/

theorem processContentItem_tool (buf it : PyJson) (h : isToolItem it = true) :
    processContentItem buf it = .ok buf := by
  cases it with
  | obj fs =>
    simp only [processContentItem]
    cases hk : PyJson.getKey (PyJson.obj fs) "type" with
    | none => simp [isToolItem, hk] at h
    | some v =>
      cases v with
      | str t =>
        simp only [isToolItem, hk] at h
        have ht : t = "tool_use" ∨ t = "tool_results" := by simpa using h
        rcases ht with rfl | rfl <;> rfl
      | null => simp [isToolItem, hk] at h
      | bool b => simp [isToolItem, hk] at h
      | num n => simp [isToolItem, hk] at h
      | arr xs => simp [isToolItem, hk] at h
      | obj gs => simp [isToolItem, hk] at h
  | null => simp [isToolItem] at h
  | bool b => simp [isToolItem] at h
  | num n => simp [isToolItem] at h
  | str s => simp [isToolItem] at h
  | arr xs => simp [isToolItem] at h

/-- Removing tool blocks from a `message.delta` content walk does not
change its result. -/
theorem foldContentItems_filter_tool (items : List PyJson) :
    ∀ buf : PyJson,
      foldContentItems buf (items.filter (fun it => !(isToolItem it)))
        = foldContentItems buf items := by
  induction items with
  | nil => intro buf; rfl
  | cons it rest ih =>
    intro buf
    by_cases hto : isToolItem it = true
    · rw [List.filter_cons_of_neg (by simp [hto])]
      show foldContentItems buf (rest.filter _)
        = match processContentItem buf it with
          | .ok b => foldContentItems b rest
          | .error e => .error e
      rw [processContentItem_tool buf it hto]
      exact ih buf
    · rw [List.filter_cons_of_pos (by simp [hto])]
      show (match processContentItem buf it with
            | .ok b => foldContentItems b (rest.filter _)
            | .error e => .error e)
        = match processContentItem buf it with
          | .ok b => foldContentItems b rest
          | .error e => .error e
      cases hp : processContentItem buf it with
      | ok b => exact ih b
      | error e => rfl

/-- A `message.delta` walk over pure text items appends every fragment in
order. -/
theorem foldContentItems_texts (texts : List String) :
    ∀ s : String,
      foldContentItems (.str s) (texts.map mkTextItem) = .ok (.str (s ++ joinTexts texts)) := by
  induction texts with
  | nil =>
    intro s
    show Except.ok (PyJson.str s) = Except.ok (PyJson.str (s ++ ""))
    rw [String.append_empty]
  | cons t ts ih =>
    intro s
    show (match (if pyTruthy (.str t) then pyAdd (.str s) (.str t) else .ok (.str s)) with
          | .ok b => foldContentItems b (ts.map mkTextItem)
          | .error e => Except.error e)
      = .ok (.str (s ++ joinTexts (t :: ts)))
    by_cases ht : t = ""
    · subst ht
      rw [pyTruthy_str_empty]
      show foldContentItems (.str s) (ts.map mkTextItem) = .ok (.str (s ++ joinTexts ("" :: ts)))
      rw [ih s]
      show _ = Except.ok (PyJson.str (s ++ ("" ++ joinTexts ts)))
      rw [String.empty_append]
    · rw [pyTruthy_str_of_ne t ht, if_pos rfl]
      show foldContentItems (.str (s ++ t)) (ts.map mkTextItem)
        = .ok (.str (s ++ joinTexts (t :: ts)))
      rw [ih (s ++ t)]
      show _ = Except.ok (PyJson.str (s ++ (t ++ joinTexts ts)))
      rw [String.append_assoc]

/-- C8: in a `message.delta` event, `tool_use`/`tool_results` content
items never contribute to or alter the text (filtering them out leaves the
decoding of the event unchanged, even in its error behavior), while text
items have their `text` fields appended to the buffer in list order. -/
theorem c8_tool_blocks_never_contribute (buf : PyJson) (items : List PyJson) (s : String)
    (texts : List String) :
    stepEvent buf (mkMsgDeltaEv items)
      = stepEvent buf (mkMsgDeltaEv (items.filter (fun it => !(isToolItem it))))
    ∧ stepEvent (.str s) (mkMsgDeltaEv (texts.map mkTextItem))
        = .ok (.str (s ++ joinTexts texts)) := by
  constructor
  · show foldContentItems buf items = foldContentItems buf (items.filter (fun it => !(isToolItem it)))
    exact (foldContentItems_filter_tool items buf).symm
  · show foldContentItems (.str s) (texts.map mkTextItem) = .ok (.str (s ++ joinTexts texts))
    exact foldContentItems_texts texts s

/-! ## C10 -/

/-- C10: for the four recognized event kinds, an absent or non-object
`data`, or an extracted text field equal to the empty string, leaves the
buffer exactly unchanged — in particular empty snapshots do not clear
accumulated text. -/
theorem c10_empty_text_keeps_buffer (buf : PyJson) (k : String) (d : PyJson)
    (hk : k ∈ ["response.text.delta", "response.text", "message.delta", "response"])
    (hd : d.isObj = false) :
    stepEvent buf (.obj [("event", .str k)]) = .ok buf
    ∧ stepEvent buf (.obj [("event", .str k), ("data", d)]) = .ok buf
    ∧ stepEvent buf (mkDeltaEv "") = .ok buf
    ∧ stepEvent buf (mkRespTextEv "") = .ok buf
    ∧ stepEvent buf (mkMsgDeltaEv [mkTextItem ""]) = .ok buf
    ∧ stepEvent buf (mkRespEv [mkTextItem ""]) = .ok buf := by
  have hk4 : k = "response.text.delta" ∨ k = "response.text" ∨ k = "message.delta"
      ∨ k = "response" := by simpa using hk
  refine ⟨?_, ?_, rfl, rfl, rfl, rfl⟩
  · rcases hk4 with rfl | rfl | rfl | rfl <;> rfl
  · rcases hk4 with rfl | rfl | rfl | rfl <;>
      (cases d <;> first | rfl | simp [PyJson.isObj] at hd)

/-- C10 witness: a `response.text` snapshot with a missing-`data` sibling
shapes, applied at buffer "kept" and non-object data `5`. -/
theorem c10_empty_text_keeps_buffer_witness :
    stepEvent (.str "kept") (.obj [("event", .str "response.text")]) = .ok (.str "kept")
    ∧ stepEvent (.str "kept") (.obj [("event", .str "response.text"), ("data", .num 5)])
        = .ok (.str "kept")
    ∧ stepEvent (.str "kept") (mkRespTextEv "") = .ok (.str "kept") := by
  have h := c10_empty_text_keeps_buffer (.str "kept") "response.text" (.num 5)
    (by decide) rfl
  exact ⟨h.1, h.2.1, h.2.2.2.1⟩

/-! ## C5 -/

/-- C5: a body unparsable by both framing strategies yields the decode
failure outcome; a body that parses into events from which zero text is
extracted yields the distinct no-text outcome (whether the events came
from SSE framing or from the fallback); the two outcomes are different
constructors, and neither appends an assistant message to the history. -/
theorem c5_failure_vs_no_text (raw : List Char) (hist : List PyJson) :
    (jsonParse raw = none → sseEvents raw = [] →
      decodeBody raw = .decodeFailure
      ∧ (parse_and_display_response raw hist).2 = hist)
    ∧ (∀ e es b, sseEvents raw = e :: es → runEvents (e :: es) = .ok b →
        pyTruthy b = false →
        decodeBody raw = .noText (e :: es)
        ∧ (parse_and_display_response raw hist).2 = hist)
    ∧ (∀ v b, sseEvents raw = [] → jsonParse raw = some v →
        runEvents (asEventList v) = .ok b → pyTruthy b = false →
        decodeBody raw = .noText (asEventList v)
        ∧ (parse_and_display_response raw hist).2 = hist)
    ∧ (∀ evs, Outcome.noText evs ≠ Outcome.decodeFailure) := by
  refine ⟨?_, ?_, ?_, fun evs h => Outcome.noConfusion h⟩
  · intro h1 h2
    have hd : decodeBody raw = .decodeFailure := by
      simp only [decodeBody, h1, h2]
    exact ⟨hd, by simp only [parse_and_display_response, hd]⟩
  · intro e es b hs hr ht
    have hd : decodeBody raw = .noText (e :: es) := by
      simp only [decodeBody, hs, finalizeEvents, hr, ht, if_false, Bool.false_eq_true]
    exact ⟨hd, by simp only [parse_and_display_response, hd]⟩
  · intro v b hs hj hr ht
    have hd : decodeBody raw = .noText (asEventList v) := by
      simp only [decodeBody, hs, hj, finalizeEvents, hr, ht, if_false, Bool.false_eq_true]
    exact ⟨hd, by simp only [parse_and_display_response, hd]⟩

/-- C5 witness: garbage gives the decode failure with history untouched;
a well-formed event with no text gives the no-text outcome with history
untouched. -/
theorem c5_failure_vs_no_text_witness :
    (decodeBody "garbage".data = .decodeFailure
      ∧ (parse_and_display_response "garbage".data [mkUserMessage "q"]).2
          = [mkUserMessage "q"])
    ∧ (decodeBody "data: \x7b\"event\": \"other\"\x7d".data
          = .noText [.obj [("event", .str "other")]]
      ∧ (parse_and_display_response "data: \x7b\"event\": \"other\"\x7d".data
          [mkUserMessage "q"]).2 = [mkUserMessage "q"]) :=
  ⟨(c5_failure_vs_no_text "garbage".data [mkUserMessage "q"]).1 rfl rfl,
   (c5_failure_vs_no_text "data: \x7b\"event\": \"other\"\x7d".data
      [mkUserMessage "q"]).2.1 (.obj [("event", .str "other")]) [] (.str "")
      rfl rfl rfl⟩

/-! ## C9 -/

/-- C9: the injected message contains, in order, the page label, the
formatted start and end dates, the inclusive day count (end minus start
plus one), the data summary verbatim, and finally the whole raw question;
nothing of the question is truncated.  (The function is a pure formatter
by construction.) -/
theorem c9_context_injection (user_message page_context data_summary : String)
    (start_date end_date : PyDate) :
    ∃ x0 x1 x2 x3 x4 x5 : String,
      inject_context_into_message user_message page_context data_summary
          start_date end_date
        = x0 ++ page_context ++ x1 ++ strftimeBdY start_date ++ x2
          ++ strftimeBdY end_date ++ x3
          ++ toString (dateDiffDays end_date start_date + 1) ++ x4
          ++ data_summary ++ x5 ++ user_message ++ "\n" := by
  refine ⟨"**Context**: You are viewing the ", " dashboard page.\n**Date Range**: ",
    " to ", " (", " days selected)\n\n**Current Data Summary**:\n",
    "\n\n**User Question**: ", ?_⟩
  simp only [inject_context_into_message, days_selected, String.append_assoc]

/-! ## C6 — well-typedness of events and exception behavior -/

/-- `data.text`, when present under an object `data`, is a string. -/
def dataTextOk (ev : PyJson) : Bool :=
  match (ev.getKey "data").getD (.obj []) with
  | .obj dfs =>
    match (PyJson.getKey (.obj dfs) "text").getD (.str "") with
    | .str _ => true
    | _ => false
  | _ => true

/-- A content item: if it is a `text`-typed object, its `text` field is a
string. -/
def itemTextOk (item : PyJson) : Bool :=
  match item with
  | .obj _ =>
    match item.getKey "type" with
    | some (.str t) =>
      if t = "text" then
        match (item.getKey "text").getD (.str "") with
        | .str _ => true
        | _ => false
      else true
    | _ => true
  | _ => true

/-- A legacy choice: whichever of `delta.content` / `content` the code
would append is a string. -/
def choiceOk (choice : PyJson) : Bool :=
  match choice with
  | .obj _ =>
    match (choice.getKey "delta").getD (.obj []) with
    | .obj dfs =>
      match PyJson.getKey (.obj dfs) "content" with
      | some (.str _) => true
      | some _ => false
      | none =>
        match choice.getKey "content" with
        | some (.str _) => true
        | some _ => false
        | none => true
    | _ =>
      match choice.getKey "content" with
      | some (.str _) => true
      | some _ => false
      | none => true
  | _ => true

/-- Legacy events: the `choices` value is a list of well-typed choices. -/
def legacyOk (ev : PyJson) : Bool :=
  match legacyChoices ev with
  | .arr cl => cl.all choiceOk
  | _ => false

/-- `message.delta` events: the `data.delta.content` items are
well-typed. -/
def msgDeltaOk (ev : PyJson) : Bool :=
  match (ev.getKey "data").getD (.obj []) with
  | .obj dfs =>
    match (PyJson.getKey (.obj dfs) "delta").getD (.obj []) with
    | .obj efs =>
      match (PyJson.getKey (.obj efs) "content").getD (.arr []) with
      | .arr items => items.all itemTextOk
      | _ => true
    | _ => true
  | _ => true

/-- `response` events: the `data.content` items are well-typed. -/
def respOk (ev : PyJson) : Bool :=
  match (ev.getKey "data").getD (.obj []) with
  | .obj dfs =>
    match (PyJson.getKey (.obj dfs) "content").getD (.arr []) with
    | .arr items => items.all itemTextOk
    | _ => true
  | _ => true

/-- The branch-appropriate condition for the `if/elif` dispatch. -/
def dispatchOk (k : String) (ev : PyJson) : Bool :=
  if k = "response.text.delta" then dataTextOk ev
  else if k = "response.text" then dataTextOk ev
  else if k = "message.delta" then msgDeltaOk ev
  else if k = "response" then respOk ev
  else legacyOk ev

/-- An event whose fields have the shapes the decoder expects wherever it
would otherwise raise. -/
def evWellTyped (ev : PyJson) : Bool :=
  match ev with
  | .obj _ =>
    match ev.getKey "event" with
    | some (.str k) => dispatchOk k ev
    | _ => legacyOk ev
  | _ => true

theorem stepDelta_str (ev : PyJson) (h : dataTextOk ev = true) (s : String) :
    ∃ s2, stepDelta (.str s) ev = .ok (.str s2) := by
  cases hdd : (ev.getKey "data").getD (.obj []) with
  | obj dfs =>
    cases htx : (PyJson.getKey (.obj dfs) "text").getD (.str "") with
    | str t =>
      cases hb : pyTruthy (.str t) with
      | true => exact ⟨s ++ t, by simp only [stepDelta, hdd, htx, hb, if_true]; rfl⟩
      | false => exact ⟨s, by simp only [stepDelta, hdd, htx, hb]; rfl⟩
    | null => simp only [dataTextOk, hdd, htx] at h; exact Bool.noConfusion h
    | bool b => simp only [dataTextOk, hdd, htx] at h; exact Bool.noConfusion h
    | num n => simp only [dataTextOk, hdd, htx] at h; exact Bool.noConfusion h
    | arr xs => simp only [dataTextOk, hdd, htx] at h; exact Bool.noConfusion h
    | obj gs => simp only [dataTextOk, hdd, htx] at h; exact Bool.noConfusion h
  | null => exact ⟨s, by simp only [stepDelta, hdd]⟩
  | bool b => exact ⟨s, by simp only [stepDelta, hdd]⟩
  | num n => exact ⟨s, by simp only [stepDelta, hdd]⟩
  | str t => exact ⟨s, by simp only [stepDelta, hdd]⟩
  | arr xs => exact ⟨s, by simp only [stepDelta, hdd]⟩

theorem stepReplace_str (ev : PyJson) (h : dataTextOk ev = true) (s : String) :
    ∃ s2, stepReplace (.str s) ev = .str s2 := by
  cases hdd : (ev.getKey "data").getD (.obj []) with
  | obj dfs =>
    cases htx : (PyJson.getKey (.obj dfs) "text").getD (.str "") with
    | str t =>
      cases hb : pyTruthy (.str t) with
      | true => exact ⟨t, by simp only [stepReplace, hdd, htx, hb, if_true]⟩
      | false => exact ⟨s, by simp only [stepReplace, hdd, htx, hb]; rfl⟩
    | null => simp only [dataTextOk, hdd, htx] at h; exact Bool.noConfusion h
    | bool b => simp only [dataTextOk, hdd, htx] at h; exact Bool.noConfusion h
    | num n => simp only [dataTextOk, hdd, htx] at h; exact Bool.noConfusion h
    | arr xs => simp only [dataTextOk, hdd, htx] at h; exact Bool.noConfusion h
    | obj gs => simp only [dataTextOk, hdd, htx] at h; exact Bool.noConfusion h
  | null => exact ⟨s, by simp only [stepReplace, hdd]⟩
  | bool b => exact ⟨s, by simp only [stepReplace, hdd]⟩
  | num n => exact ⟨s, by simp only [stepReplace, hdd]⟩
  | str t => exact ⟨s, by simp only [stepReplace, hdd]⟩
  | arr xs => exact ⟨s, by simp only [stepReplace, hdd]⟩

theorem processContentItem_str (it : PyJson) (h : itemTextOk it = true) (s : String) :
    ∃ s2, processContentItem (.str s) it = .ok (.str s2) := by
  cases it with
  | obj fs =>
    cases hk : PyJson.getKey (.obj fs) "type" with
    | none => exact ⟨s, by simp only [processContentItem, hk]⟩
    | some v =>
      cases v with
      | str t =>
        by_cases ht : t = "text"
        · subst ht
          cases htx : (PyJson.getKey (.obj fs) "text").getD (.str "") with
          | str t2 =>
            cases hb : pyTruthy (.str t2) with
            | true =>
              exact ⟨s ++ t2, by simp only [processContentItem, hk, htx, hb, if_true]; rfl⟩
            | false =>
              exact ⟨s, by simp only [processContentItem, hk, htx, hb]; rfl⟩
          | null => simp only [itemTextOk, hk, htx, if_pos rfl] at h; exact Bool.noConfusion h
          | bool b => simp only [itemTextOk, hk, htx, if_pos rfl] at h; exact Bool.noConfusion h
          | num n => simp only [itemTextOk, hk, htx, if_pos rfl] at h; exact Bool.noConfusion h
          | arr xs => simp only [itemTextOk, hk, htx, if_pos rfl] at h; exact Bool.noConfusion h
          | obj gs => simp only [itemTextOk, hk, htx, if_pos rfl] at h; exact Bool.noConfusion h
        · exact ⟨s, by simp only [processContentItem, hk, if_neg ht]⟩
      | null => exact ⟨s, by simp only [processContentItem, hk]⟩
      | bool b => exact ⟨s, by simp only [processContentItem, hk]⟩
      | num n => exact ⟨s, by simp only [processContentItem, hk]⟩
      | arr xs => exact ⟨s, by simp only [processContentItem, hk]⟩
      | obj gs => exact ⟨s, by simp only [processContentItem, hk]⟩
  | null => exact ⟨s, rfl⟩
  | bool b => exact ⟨s, rfl⟩
  | num n => exact ⟨s, rfl⟩
  | str t => exact ⟨s, rfl⟩
  | arr xs => exact ⟨s, rfl⟩

theorem foldContentItems_str (items : List PyJson) (h : items.all itemTextOk = true) :
    ∀ s : String, ∃ s2, foldContentItems (.str s) items = .ok (.str s2) := by
  induction items with
  | nil => intro s; exact ⟨s, rfl⟩
  | cons it rest ih =>
    intro s
    have hc : itemTextOk it = true ∧ rest.all itemTextOk = true := by
      simpa [List.all_cons, Bool.and_eq_true] using h
    have h1 := hc.1
    have h2 := hc.2
    obtain ⟨s1, hs1⟩ := processContentItem_str it h1 s
    obtain ⟨s2, hs2⟩ := ih h2 s1
    exact ⟨s2, by simp only [foldContentItems, hs1, hs2]⟩

theorem processResponseItem_str (it : PyJson) (h : itemTextOk it = true) (s : String) :
    ∃ s2, processResponseItem (.str s) it = .str s2 := by
  cases it with
  | obj fs =>
    cases hk : PyJson.getKey (.obj fs) "type" with
    | none => exact ⟨s, by simp only [processResponseItem, hk]⟩
    | some v =>
      cases v with
      | str t =>
        by_cases ht : t = "text"
        · subst ht
          cases htx : (PyJson.getKey (.obj fs) "text").getD (.str "") with
          | str t2 =>
            cases hb : pyTruthy (.str t2) with
            | true =>
              exact ⟨t2, by simp only [processResponseItem, hk, htx, hb, if_true]⟩
            | false =>
              exact ⟨s, by simp only [processResponseItem, hk, htx, hb]; rfl⟩
          | null => simp only [itemTextOk, hk, htx, if_pos rfl] at h; exact Bool.noConfusion h
          | bool b => simp only [itemTextOk, hk, htx, if_pos rfl] at h; exact Bool.noConfusion h
          | num n => simp only [itemTextOk, hk, htx, if_pos rfl] at h; exact Bool.noConfusion h
          | arr xs => simp only [itemTextOk, hk, htx, if_pos rfl] at h; exact Bool.noConfusion h
          | obj gs => simp only [itemTextOk, hk, htx, if_pos rfl] at h; exact Bool.noConfusion h
        · exact ⟨s, by simp only [processResponseItem, hk, if_neg ht]⟩
      | null => exact ⟨s, by simp only [processResponseItem, hk]⟩
      | bool b => exact ⟨s, by simp only [processResponseItem, hk]⟩
      | num n => exact ⟨s, by simp only [processResponseItem, hk]⟩
      | arr xs => exact ⟨s, by simp only [processResponseItem, hk]⟩
      | obj gs => exact ⟨s, by simp only [processResponseItem, hk]⟩
  | null => exact ⟨s, rfl⟩
  | bool b => exact ⟨s, rfl⟩
  | num n => exact ⟨s, rfl⟩
  | str t => exact ⟨s, rfl⟩
  | arr xs => exact ⟨s, rfl⟩

theorem foldRespItems_str (items : List PyJson) (h : items.all itemTextOk = true) :
    ∀ s : String, ∃ s2, foldRespItems (.str s) items = .str s2 := by
  induction items with
  | nil => intro s; exact ⟨s, rfl⟩
  | cons it rest ih =>
    intro s
    have hc : itemTextOk it = true ∧ rest.all itemTextOk = true := by
      simpa [List.all_cons, Bool.and_eq_true] using h
    have h1 := hc.1
    have h2 := hc.2
    obtain ⟨s1, hs1⟩ := processResponseItem_str it h1 s
    obtain ⟨s2, hs2⟩ := ih h2 s1
    exact ⟨s2, by simp only [foldRespItems, hs1, hs2]⟩

theorem processChoice_str (choice : PyJson) (h : choiceOk choice = true) (s : String) :
    ∃ s2, processChoice (.str s) choice = .ok (.str s2) := by
  cases choice with
  | obj fs =>
    cases hd : (PyJson.getKey (.obj fs) "delta").getD (.obj []) with
    | obj dfs =>
      cases hc : PyJson.getKey (.obj dfs) "content" with
      | some v =>
        cases v with
        | str t => exact ⟨s ++ t, by simp only [processChoice, hd, hc]; rfl⟩
        | null => simp only [choiceOk, hd, hc] at h; exact Bool.noConfusion h
        | bool b => simp only [choiceOk, hd, hc] at h; exact Bool.noConfusion h
        | num n => simp only [choiceOk, hd, hc] at h; exact Bool.noConfusion h
        | arr xs => simp only [choiceOk, hd, hc] at h; exact Bool.noConfusion h
        | obj gs => simp only [choiceOk, hd, hc] at h; exact Bool.noConfusion h
      | none =>
        cases hcc : PyJson.getKey (.obj fs) "content" with
        | some v =>
          cases v with
          | str t => exact ⟨s ++ t, by simp only [processChoice, hd, hc, hcc]; rfl⟩
          | null => simp only [choiceOk, hd, hc, hcc] at h; exact Bool.noConfusion h
          | bool b => simp only [choiceOk, hd, hc, hcc] at h; exact Bool.noConfusion h
          | num n => simp only [choiceOk, hd, hc, hcc] at h; exact Bool.noConfusion h
          | arr xs => simp only [choiceOk, hd, hc, hcc] at h; exact Bool.noConfusion h
          | obj gs => simp only [choiceOk, hd, hc, hcc] at h; exact Bool.noConfusion h
        | none => exact ⟨s, by simp only [processChoice, hd, hc, hcc]⟩
    | null =>
      cases hcc : PyJson.getKey (.obj fs) "content" with
      | some v =>
        cases v with
        | str t => exact ⟨s ++ t, by simp only [processChoice, hd, hcc]; rfl⟩
        | null => simp only [choiceOk, hd, hcc] at h; exact Bool.noConfusion h
        | bool b => simp only [choiceOk, hd, hcc] at h; exact Bool.noConfusion h
        | num n => simp only [choiceOk, hd, hcc] at h; exact Bool.noConfusion h
        | arr xs => simp only [choiceOk, hd, hcc] at h; exact Bool.noConfusion h
        | obj gs => simp only [choiceOk, hd, hcc] at h; exact Bool.noConfusion h
      | none => exact ⟨s, by simp only [processChoice, hd, hcc]⟩
    | bool b =>
      cases hcc : PyJson.getKey (.obj fs) "content" with
      | some v =>
        cases v with
        | str t => exact ⟨s ++ t, by simp only [processChoice, hd, hcc]; rfl⟩
        | null => simp only [choiceOk, hd, hcc] at h; exact Bool.noConfusion h
        | bool c => simp only [choiceOk, hd, hcc] at h; exact Bool.noConfusion h
        | num n => simp only [choiceOk, hd, hcc] at h; exact Bool.noConfusion h
        | arr xs => simp only [choiceOk, hd, hcc] at h; exact Bool.noConfusion h
        | obj gs => simp only [choiceOk, hd, hcc] at h; exact Bool.noConfusion h
      | none => exact ⟨s, by simp only [processChoice, hd, hcc]⟩
    | num n =>
      cases hcc : PyJson.getKey (.obj fs) "content" with
      | some v =>
        cases v with
        | str t => exact ⟨s ++ t, by simp only [processChoice, hd, hcc]; rfl⟩
        | null => simp only [choiceOk, hd, hcc] at h; exact Bool.noConfusion h
        | bool b => simp only [choiceOk, hd, hcc] at h; exact Bool.noConfusion h
        | num m => simp only [choiceOk, hd, hcc] at h; exact Bool.noConfusion h
        | arr xs => simp only [choiceOk, hd, hcc] at h; exact Bool.noConfusion h
        | obj gs => simp only [choiceOk, hd, hcc] at h; exact Bool.noConfusion h
      | none => exact ⟨s, by simp only [processChoice, hd, hcc]⟩
    | str t0 =>
      cases hcc : PyJson.getKey (.obj fs) "content" with
      | some v =>
        cases v with
        | str t => exact ⟨s ++ t, by simp only [processChoice, hd, hcc]; rfl⟩
        | null => simp only [choiceOk, hd, hcc] at h; exact Bool.noConfusion h
        | bool b => simp only [choiceOk, hd, hcc] at h; exact Bool.noConfusion h
        | num n => simp only [choiceOk, hd, hcc] at h; exact Bool.noConfusion h
        | arr xs => simp only [choiceOk, hd, hcc] at h; exact Bool.noConfusion h
        | obj gs => simp only [choiceOk, hd, hcc] at h; exact Bool.noConfusion h
      | none => exact ⟨s, by simp only [processChoice, hd, hcc]⟩
    | arr ys =>
      cases hcc : PyJson.getKey (.obj fs) "content" with
      | some v =>
        cases v with
        | str t => exact ⟨s ++ t, by simp only [processChoice, hd, hcc]; rfl⟩
        | null => simp only [choiceOk, hd, hcc] at h; exact Bool.noConfusion h
        | bool b => simp only [choiceOk, hd, hcc] at h; exact Bool.noConfusion h
        | num n => simp only [choiceOk, hd, hcc] at h; exact Bool.noConfusion h
        | arr xs => simp only [choiceOk, hd, hcc] at h; exact Bool.noConfusion h
        | obj gs => simp only [choiceOk, hd, hcc] at h; exact Bool.noConfusion h
      | none => exact ⟨s, by simp only [processChoice, hd, hcc]⟩
  | null => exact ⟨s, rfl⟩
  | bool b => exact ⟨s, rfl⟩
  | num n => exact ⟨s, rfl⟩
  | str t => exact ⟨s, rfl⟩
  | arr xs => exact ⟨s, rfl⟩

theorem foldChoices_str (cl : List PyJson) (h : cl.all choiceOk = true) :
    ∀ s : String, ∃ s2, foldChoices (.str s) cl = .ok (.str s2) := by
  induction cl with
  | nil => intro s; exact ⟨s, rfl⟩
  | cons c rest ih =>
    intro s
    have hc : choiceOk c = true ∧ rest.all choiceOk = true := by
      simpa [List.all_cons, Bool.and_eq_true] using h
    obtain ⟨s1, hs1⟩ := processChoice_str c hc.1 s
    obtain ⟨s2, hs2⟩ := ih hc.2 s1
    exact ⟨s2, by simp only [foldChoices, hs1, hs2]⟩

theorem stepMsgDelta_str (ev : PyJson) (h : msgDeltaOk ev = true) (s : String) :
    ∃ s2, stepMsgDelta (.str s) ev = .ok (.str s2) := by
  cases hdd : (ev.getKey "data").getD (.obj []) with
  | obj dfs =>
    cases hde : (PyJson.getKey (.obj dfs) "delta").getD (.obj []) with
    | obj efs =>
      cases hco : (PyJson.getKey (.obj efs) "content").getD (.arr []) with
      | arr items =>
        have hall : items.all itemTextOk = true := by
          simpa only [msgDeltaOk, hdd, hde, hco] using h
        obtain ⟨s2, hs2⟩ := foldContentItems_str items hall s
        exact ⟨s2, by simp only [stepMsgDelta, hdd, hde, hco]; exact hs2⟩
      | null => exact ⟨s, by simp only [stepMsgDelta, hdd, hde, hco]⟩
      | bool b => exact ⟨s, by simp only [stepMsgDelta, hdd, hde, hco]⟩
      | num n => exact ⟨s, by simp only [stepMsgDelta, hdd, hde, hco]⟩
      | str t => exact ⟨s, by simp only [stepMsgDelta, hdd, hde, hco]⟩
      | obj gs => exact ⟨s, by simp only [stepMsgDelta, hdd, hde, hco]⟩
    | null => exact ⟨s, by simp only [stepMsgDelta, hdd, hde]⟩
    | bool b => exact ⟨s, by simp only [stepMsgDelta, hdd, hde]⟩
    | num n => exact ⟨s, by simp only [stepMsgDelta, hdd, hde]⟩
    | str t => exact ⟨s, by simp only [stepMsgDelta, hdd, hde]⟩
    | arr xs => exact ⟨s, by simp only [stepMsgDelta, hdd, hde]⟩
  | null => exact ⟨s, by simp only [stepMsgDelta, hdd]⟩
  | bool b => exact ⟨s, by simp only [stepMsgDelta, hdd]⟩
  | num n => exact ⟨s, by simp only [stepMsgDelta, hdd]⟩
  | str t => exact ⟨s, by simp only [stepMsgDelta, hdd]⟩
  | arr xs => exact ⟨s, by simp only [stepMsgDelta, hdd]⟩

theorem stepResponse_str (ev : PyJson) (h : respOk ev = true) (s : String) :
    ∃ s2, stepResponse (.str s) ev = .str s2 := by
  cases hdd : (ev.getKey "data").getD (.obj []) with
  | obj dfs =>
    cases hco : (PyJson.getKey (.obj dfs) "content").getD (.arr []) with
    | arr items =>
      have hall : items.all itemTextOk = true := by
        simpa only [respOk, hdd, hco] using h
      obtain ⟨s2, hs2⟩ := foldRespItems_str items hall s
      exact ⟨s2, by simp only [stepResponse, hdd, hco]; exact hs2⟩
    | null => exact ⟨s, by simp only [stepResponse, hdd, hco]⟩
    | bool b => exact ⟨s, by simp only [stepResponse, hdd, hco]⟩
    | num n => exact ⟨s, by simp only [stepResponse, hdd, hco]⟩
    | str t => exact ⟨s, by simp only [stepResponse, hdd, hco]⟩
    | obj gs => exact ⟨s, by simp only [stepResponse, hdd, hco]⟩
  | null => exact ⟨s, by simp only [stepResponse, hdd]⟩
  | bool b => exact ⟨s, by simp only [stepResponse, hdd]⟩
  | num n => exact ⟨s, by simp only [stepResponse, hdd]⟩
  | str t => exact ⟨s, by simp only [stepResponse, hdd]⟩
  | arr xs => exact ⟨s, by simp only [stepResponse, hdd]⟩

theorem legacyStep_str (ev : PyJson) (h : legacyOk ev = true) (s : String) :
    ∃ s2, legacyStep (.str s) ev = .ok (.str s2) := by
  cases hc : legacyChoices ev with
  | arr cl =>
    have hall : cl.all choiceOk = true := by simpa only [legacyOk, hc] using h
    obtain ⟨s1, hs1⟩ := foldChoices_str cl hall s
    cases hcc : ev.getKey "content" with
    | some v =>
      cases v with
      | str t =>
        exact ⟨s1 ++ t, by simp only [legacyStep, hc, pyIter, hs1, hcc]; rfl⟩
      | null => exact ⟨s1, by simp only [legacyStep, hc, pyIter, hs1, hcc]⟩
      | bool b => exact ⟨s1, by simp only [legacyStep, hc, pyIter, hs1, hcc]⟩
      | num n => exact ⟨s1, by simp only [legacyStep, hc, pyIter, hs1, hcc]⟩
      | arr xs => exact ⟨s1, by simp only [legacyStep, hc, pyIter, hs1, hcc]⟩
      | obj gs => exact ⟨s1, by simp only [legacyStep, hc, pyIter, hs1, hcc]⟩
    | none => exact ⟨s1, by simp only [legacyStep, hc, pyIter, hs1, hcc]⟩
  | null => simp only [legacyOk, hc] at h; exact Bool.noConfusion h
  | bool b => simp only [legacyOk, hc] at h; exact Bool.noConfusion h
  | num n => simp only [legacyOk, hc] at h; exact Bool.noConfusion h
  | str t => simp only [legacyOk, hc] at h; exact Bool.noConfusion h
  | obj gs => simp only [legacyOk, hc] at h; exact Bool.noConfusion h

theorem dispatchEvent_str (k : String) (ev : PyJson) (h : dispatchOk k ev = true)
    (s : String) : ∃ s2, dispatchEvent k (.str s) ev = .ok (.str s2) := by
  unfold dispatchOk at h
  unfold dispatchEvent
  by_cases h1 : k = "response.text.delta"
  · rw [if_pos h1] at h ⊢
    exact stepDelta_str ev h s
  · rw [if_neg h1] at h ⊢
    by_cases h2 : k = "response.text"
    · rw [if_pos h2] at h ⊢
      obtain ⟨s2, hs2⟩ := stepReplace_str ev h s
      exact ⟨s2, by rw [hs2]⟩
    · rw [if_neg h2] at h ⊢
      by_cases h3 : k = "message.delta"
      · rw [if_pos h3] at h ⊢
        exact stepMsgDelta_str ev h s
      · rw [if_neg h3] at h ⊢
        by_cases h4 : k = "response"
        · rw [if_pos h4] at h ⊢
          obtain ⟨s2, hs2⟩ := stepResponse_str ev h s
          exact ⟨s2, by rw [hs2]⟩
        · rw [if_neg h4] at h ⊢
          exact legacyStep_str ev h s

theorem stepEvent_str (ev : PyJson) (h : evWellTyped ev = true) (s : String) :
    ∃ s2, stepEvent (.str s) ev = .ok (.str s2) := by
  cases ev with
  | obj fs =>
    cases hk : PyJson.getKey (.obj fs) "event" with
    | none =>
      have hl : legacyOk (.obj fs) = true := by simpa only [evWellTyped, hk] using h
      obtain ⟨s2, hs2⟩ := legacyStep_str (.obj fs) hl s
      exact ⟨s2, by simp only [stepEvent, hk]; exact hs2⟩
    | some v =>
      cases v with
      | str k =>
        have hd : dispatchOk k (.obj fs) = true := by simpa only [evWellTyped, hk] using h
        obtain ⟨s2, hs2⟩ := dispatchEvent_str k (.obj fs) hd s
        exact ⟨s2, by simp only [stepEvent, hk]; exact hs2⟩
      | null =>
        have hl : legacyOk (.obj fs) = true := by simpa only [evWellTyped, hk] using h
        obtain ⟨s2, hs2⟩ := legacyStep_str (.obj fs) hl s
        exact ⟨s2, by simp only [stepEvent, hk]; exact hs2⟩
      | bool b =>
        have hl : legacyOk (.obj fs) = true := by simpa only [evWellTyped, hk] using h
        obtain ⟨s2, hs2⟩ := legacyStep_str (.obj fs) hl s
        exact ⟨s2, by simp only [stepEvent, hk]; exact hs2⟩
      | num n =>
        have hl : legacyOk (.obj fs) = true := by simpa only [evWellTyped, hk] using h
        obtain ⟨s2, hs2⟩ := legacyStep_str (.obj fs) hl s
        exact ⟨s2, by simp only [stepEvent, hk]; exact hs2⟩
      | arr xs =>
        have hl : legacyOk (.obj fs) = true := by simpa only [evWellTyped, hk] using h
        obtain ⟨s2, hs2⟩ := legacyStep_str (.obj fs) hl s
        exact ⟨s2, by simp only [stepEvent, hk]; exact hs2⟩
      | obj gs =>
        have hl : legacyOk (.obj fs) = true := by simpa only [evWellTyped, hk] using h
        obtain ⟨s2, hs2⟩ := legacyStep_str (.obj fs) hl s
        exact ⟨s2, by simp only [stepEvent, hk]; exact hs2⟩
  | null => exact ⟨s, rfl⟩
  | bool b => exact ⟨s, rfl⟩
  | num n => exact ⟨s, rfl⟩
  | str t => exact ⟨s, rfl⟩
  | arr xs => exact ⟨s, rfl⟩

theorem runEventsFrom_str (events : List PyJson) (h : events.all evWellTyped = true) :
    ∀ s : String, ∃ s2, runEventsFrom (.str s) events = .ok (.str s2) := by
  induction events with
  | nil => intro s; exact ⟨s, rfl⟩
  | cons ev rest ih =>
    intro s
    have hc : evWellTyped ev = true ∧ rest.all evWellTyped = true := by
      simpa [List.all_cons, Bool.and_eq_true] using h
    obtain ⟨s1, hs1⟩ := stepEvent_str ev hc.1 s
    obtain ⟨s2, hs2⟩ := ih hc.2 s1
    exact ⟨s2, by simp only [runEventsFrom, hs1, hs2]⟩

/-- C6 (amended): the decoder never lets an exception escape — its only
outcomes are text, no-text, decode-failure, and the caught-error outcome
produced by the surrounding handler — and when every event is well-typed
(string-valued text/content fields wherever the code appends, list-valued
`choices`), the Stage-3 walk completes without raising at all. -/
theorem c6_well_typed_events_never_raise (events : List PyJson)
    (h : events.all evWellTyped = true) :
    ∃ s, runEvents events = .ok (.str s) :=
  runEventsFrom_str events h ""

/-- C6 witness: a well-typed delta event runs without an exception. -/
theorem c6_well_typed_events_never_raise_witness :
    ∃ s, runEvents [mkDeltaEv "Hi"] = .ok (.str s) :=
  c6_well_typed_events_never_raise [mkDeltaEv "Hi"] rfl

/-- C6 counterexample: a legacy event whose `delta.content` is the number
5 makes the Stage-3 walk raise `TypeError`; the outer handler catches it
and reports an error outcome that is neither decoded text, nor no-text,
nor the decode-failure outcome — so "malformed input never raises" fails
on the code. -/
theorem c6_type_error_counterexample :
    decodeBody "\x7b\"choices\": [\x7b\"delta\": \x7b\"content\": 5\x7d\x7d]\x7d".data
      = .caughtError "TypeError: unsupported operand types for +"
    ∧ Outcome.caughtError "TypeError: unsupported operand types for +"
        ≠ Outcome.decodeFailure
    ∧ Outcome.caughtError "TypeError: unsupported operand types for +"
        ≠ Outcome.noText [.obj [("choices", .arr [.obj [("delta", .obj [("content", .num 5)])]])]] :=
  ⟨rfl, fun hcontra => Outcome.noConfusion hcontra, fun hcontra => Outcome.noConfusion hcontra⟩

/-! ## SSE framing round-trip lemmas (for C2 and C3) -/

theorem splitBlank_no_blank (p : List Char) (h : containsBlank p = false) :
    splitBlank p = [p] := by
  induction p with
  | nil => rfl
  | cons c p ih =>
    cases p with
    | nil => rfl
    | cons d rest =>
      have h' : ((c = '\n' && d = '\n') || containsBlank (d :: rest)) = false := h
      rw [Bool.or_eq_false_iff] at h'
      have hnot : ¬(c = '\n' ∧ d = '\n') := by
        intro hcd
        rw [hcd.1, hcd.2] at h'
        simp at h'
      simp only [splitBlank, if_neg hnot]
      rw [ih h'.2]

theorem splitBlank_append_sep :
    ∀ p : List Char, containsBlank p = false → endsNL p = false →
      ∀ r, splitBlank (p ++ '\n' :: '\n' :: r) = p :: splitBlank r := by
  intro p
  induction p with
  | nil =>
    intro _ _ r
    simp [splitBlank]
  | cons c p ih =>
    cases p with
    | nil =>
      intro _ he r
      have hc : c ≠ '\n' := by
        intro hcn
        rw [show endsNL [c] = decide (c = '\n') from rfl, hcn] at he
        simp at he
      show splitBlank (c :: '\n' :: '\n' :: r) = [c] :: splitBlank r
      simp [splitBlank, hc]
    | cons d p2 =>
      intro hb he r
      have h' : ((c = '\n' && d = '\n') || containsBlank (d :: p2)) = false := hb
      rw [Bool.or_eq_false_iff] at h'
      have hnot : ¬(c = '\n' ∧ d = '\n') := by
        intro hcd
        rw [hcd.1, hcd.2] at h'
        simp at h'
      have he' : endsNL (d :: p2) = false := he
      have ih' := ih h'.2 he' r
      simp only [List.cons_append] at ih'
      show splitBlank (c :: d :: (p2 ++ '\n' :: '\n' :: r)) = (c :: d :: p2) :: splitBlank r
      simp only [splitBlank, if_neg hnot]
      rw [ih']

theorem splitBlank_joinBlank :
    ∀ cs : List (List Char), cs ≠ [] →
      (∀ c ∈ cs, containsBlank c = false ∧ endsNL c = false) →
      splitBlank (joinBlank cs) = cs := by
  intro cs
  induction cs with
  | nil => intro h; exact absurd rfl h
  | cons c cs ih =>
    intro _ hall
    cases cs with
    | nil => exact splitBlank_no_blank c (hall c (List.mem_singleton.mpr rfl)).1
    | cons c2 cs2 =>
      have h1 := hall c (List.mem_cons_self c _)
      show splitBlank (c ++ '\n' :: '\n' :: joinBlank (c2 :: cs2)) = c :: c2 :: cs2
      rw [splitBlank_append_sep c h1.1 h1.2 (joinBlank (c2 :: cs2))]
      rw [ih (by simp) (fun x hx => hall x (List.mem_cons_of_mem _ hx))]

theorem filterMap_filter_isSome {α β : Type} (f : α → Option β) (l : List α) :
    (l.filter (fun x => (f x).isSome)).filterMap f = l.filterMap f := by
  induction l with
  | nil => rfl
  | cons x l ih =>
    cases hf : f x with
    | none =>
      rw [List.filter_cons_of_neg (by simp [hf])]
      rw [ih, List.filterMap_cons, hf]
    | some v =>
      rw [List.filter_cons_of_pos (by simp [hf])]
      rw [List.filterMap_cons, List.filterMap_cons, hf, ih]

/-- Stage 1 of the decoder over an explicitly framed body. -/
theorem sseEvents_joinBlank (cs : List (List Char)) (hcs : cs ≠ [])
    (hclean : ∀ c ∈ cs, containsBlank c = false ∧ endsNL c = false) :
    sseEvents (joinBlank cs) = cs.filterMap chunkEvent := by
  rw [sseEvents, splitBlank_joinBlank cs hcs hclean]

theorem decodeBody_of_events (raw : List Char) (e : PyJson) (es : List PyJson)
    (h : sseEvents raw = e :: es) : decodeBody raw = finalizeEvents (e :: es) := by
  simp only [decodeBody, h]

/-! ## C2 -/

/-- Whether Stage 1 keeps the chunk (a valid SSE `data:` block). -/
def validChunk (c : List Char) : Bool := (chunkEvent c).isSome

/-- The claim's noise kinds: no `data:` prefix, the `[DONE]` sentinel, or
an unparsable payload. -/
def noiseChunk (c : List Char) : Prop :=
  dataColon.isPrefixOf c = false ∨ pyStrip (c.drop 5) = doneChars
    ∨ jsonParse (pyStrip (c.drop 5)) = none

/-- C2: with at least one valid `data:` block present, interleaving noise
chunks (non-`data:` chunks, `[DONE]` sentinels, unparsable payloads) among
the valid blocks decodes to exactly the same outcome as the noise-free
sequence.  Each chunk is a single SSE record (it contains no blank-line
separator and does not end in a newline). -/
theorem c2_noise_resilience (cs : List (List Char))
    (hclean : ∀ c ∈ cs, containsBlank c = false ∧ endsNL c = false)
    (_hkinds : ∀ c ∈ cs, validChunk c = true ∨ noiseChunk c)
    (hval : cs.filter validChunk ≠ []) :
    decodeBody (joinBlank cs) = decodeBody (joinBlank (cs.filter validChunk)) := by
  have hcs : cs ≠ [] := by
    intro hnil
    rw [hnil] at hval
    exact hval rfl
  have hclean2 : ∀ c ∈ cs.filter validChunk, containsBlank c = false ∧ endsNL c = false :=
    fun c hc => hclean c (List.mem_of_mem_filter hc)
  have hev1 : sseEvents (joinBlank cs) = cs.filterMap chunkEvent :=
    sseEvents_joinBlank cs hcs hclean
  have hev2 : sseEvents (joinBlank (cs.filter validChunk))
      = (cs.filter validChunk).filterMap chunkEvent :=
    sseEvents_joinBlank _ hval hclean2
  have heq : (cs.filter validChunk).filterMap chunkEvent = cs.filterMap chunkEvent := by
    have : validChunk = fun c => (chunkEvent c).isSome := rfl
    rw [this]
    exact filterMap_filter_isSome chunkEvent cs
  have hne : cs.filterMap chunkEvent ≠ [] := by
    obtain ⟨c, hc⟩ := List.exists_mem_of_ne_nil _ hval
    have hcm := List.mem_filter.mp hc
    intro hnil
    rw [List.filterMap_eq_nil_iff] at hnil
    have := hnil c hcm.1
    rw [validChunk, this] at hcm
    exact Bool.noConfusion hcm.2
  cases hevs : cs.filterMap chunkEvent with
  | nil => exact absurd hevs hne
  | cons e es =>
    rw [decodeBody_of_events _ e es (by rw [hev1, hevs]),
        decodeBody_of_events _ e es (by rw [hev2, heq, hevs])]

/-- C2 witness: two valid blocks interleaved with a prefix-less chunk, a
`[DONE]` sentinel and an unparsable payload decode exactly like the two
valid blocks alone. -/
theorem c2_noise_resilience_witness :
    decodeBody (joinBlank ["data: 1".data, "junk".data, "data: [DONE]".data,
        "data: notjson".data, "data: 2".data])
      = decodeBody (joinBlank (["data: 1".data, "junk".data, "data: [DONE]".data,
          "data: notjson".data, "data: 2".data].filter validChunk)) :=
  c2_noise_resilience _ (by decide)
    (by
      intro c hc
      fin_cases hc
      · exact Or.inl (by decide)
      · exact Or.inr (Or.inl (by decide))
      · exact Or.inr (Or.inr (Or.inl (by decide)))
      · exact Or.inr (Or.inr (Or.inr rfl))
      · exact Or.inl (by decide))
    (by decide)

/-! ## C3 -/

theorem sseEvents_no_sse (b : List Char) (hnb : containsBlank b = false)
    (hpre : dataColon.isPrefixOf b = false) : sseEvents b = [] := by
  rw [sseEvents, splitBlank_no_blank b hnb]
  simp [chunkEvent, hpre]

/-- A framed chunk has no blank-line separator when its payload has
none. -/
theorem containsBlank_frame (s : List Char) (h : containsBlank s = false) :
    containsBlank (dataColon ++ ' ' :: s) = false := by
  cases s with
  | nil => rfl
  | cons c2 s2 => exact h

/-- A framed chunk does not end in a newline when its payload does not. -/
theorem endsNL_frame (s : List Char) (h : endsNL s = false) :
    endsNL (dataColon ++ ' ' :: s) = false := by
  cases s with
  | nil => rfl
  | cons c2 s2 => exact h

/-- Stage 1 recovers the event from an individually framed
`data: <json>` chunk. -/
theorem chunkEvent_frame (s : List Char) (e : PyJson)
    (h : jsonParse (pyStrip s) = some e) :
    chunkEvent (dataColon ++ ' ' :: s) = some e := by
  show (if pyStrip s ≠ [] ∧ pyStrip s ≠ doneChars then jsonParse (pyStrip s) else none)
    = some e
  have h1 : pyStrip s ≠ [] := by
    intro h0
    rw [h0, show jsonParse ([] : List Char) = none from rfl] at h
    exact Option.noConfusion h
  have h2 : pyStrip s ≠ doneChars := by
    intro h0
    rw [h0, show jsonParse doneChars = none from rfl] at h
    exact Option.noConfusion h
  rw [if_pos (And.intro h1 h2)]
  exact h

theorem frames_clean {events : List PyJson} {ss : List (List Char)}
    (hser : List.Forall₂ (fun e s => jsonParse (pyStrip s) = some e
      ∧ containsBlank s = false ∧ endsNL s = false) events ss) :
    ∀ c ∈ ss.map (fun s => dataColon ++ ' ' :: s),
      containsBlank c = false ∧ endsNL c = false := by
  induction hser with
  | nil => intro c hc; exact absurd hc (List.not_mem_nil c)
  | cons hhead htail ih =>
    intro c hc
    simp only [List.map_cons, List.mem_cons] at hc
    rcases hc with rfl | hmem
    · exact ⟨containsBlank_frame _ hhead.2.1, endsNL_frame _ hhead.2.2⟩
    · exact ih _ hmem

theorem frames_events {events : List PyJson} {ss : List (List Char)}
    (hser : List.Forall₂ (fun e s => jsonParse (pyStrip s) = some e
      ∧ containsBlank s = false ∧ endsNL s = false) events ss) :
    (ss.map (fun s => dataColon ++ ' ' :: s)).filterMap chunkEvent = events := by
  induction hser with
  | nil => rfl
  | cons hhead htail ih =>
    simp only [List.map_cons, List.filterMap_cons, chunkEvent_frame _ _ hhead.1]
    rw [ih]

/-- C3 (amended): a bare JSON array holding a *non-empty* list of events
(no blank lines, no leading `data:`) decodes exactly like the same events
individually framed as `data: <json>` SSE blocks; and a body holding one
JSON object decodes as the one-element event list containing it.  (For
the empty event list the two framings genuinely differ — see the
counterexample below.) -/
theorem c3_fallback_framing (events : List PyJson) (ss : List (List Char))
    (bare : List Char)
    (hser : List.Forall₂ (fun e s => jsonParse (pyStrip s) = some e
      ∧ containsBlank s = false ∧ endsNL s = false) events ss)
    (hbare : jsonParse bare = some (.arr events))
    (hpre : dataColon.isPrefixOf bare = false)
    (hnb : containsBlank bare = false)
    (hne : events ≠ []) :
    decodeBody bare = decodeBody (joinBlank (ss.map (fun s => dataColon ++ ' ' :: s)))
    ∧ ∀ (fsv : List (String × PyJson)) (b2 : List Char),
        jsonParse b2 = some (.obj fsv) → dataColon.isPrefixOf b2 = false →
        containsBlank b2 = false → decodeBody b2 = finalizeEvents [.obj fsv] := by
  constructor
  · have hsse : sseEvents bare = [] := sseEvents_no_sse bare hnb hpre
    have hLHS : decodeBody bare = finalizeEvents events := by
      simp only [decodeBody, hsse, hbare, asEventList]
    have hss : ss ≠ [] := by
      intro h0
      subst h0
      cases hser
      exact hne rfl
    have hframes_ne : ss.map (fun s => dataColon ++ ' ' :: s) ≠ [] := by
      simpa using hss
    have hevf : sseEvents (joinBlank (ss.map (fun s => dataColon ++ ' ' :: s))) = events := by
      rw [sseEvents_joinBlank _ hframes_ne (frames_clean hser), frames_events hser]
    cases hev : events with
    | nil => exact absurd hev hne
    | cons e es =>
      rw [hLHS, decodeBody_of_events _ e es (by rw [hevf, hev]), hev]
  · intro fsv b2 hj hp hnb2
    have hsse2 : sseEvents b2 = [] := sseEvents_no_sse b2 hnb2 hp
    simp only [decodeBody, hsse2, hj, asEventList]

/-- C3 counterexample: for the empty event list the claim fails on the
code.  The bare JSON array `[]` parses in the Stage-2 fallback, extracts
zero text, and yields the no-text outcome, while framing each of the zero
events individually yields the empty body, which has no SSE blocks and is
not parseable JSON, so it yields the decode-failure outcome — a different
outcome (the same two outcomes C5 keeps distinct). -/
theorem c3_empty_list_counterexample :
    decodeBody "[]".data = .noText []
    ∧ decodeBody (joinBlank (([] : List (List Char)).map (fun s => dataColon ++ ' ' :: s)))
        = .decodeFailure
    ∧ Outcome.noText [] ≠ Outcome.decodeFailure :=
  And.intro rfl (And.intro rfl (fun hcontra => Outcome.noConfusion hcontra))

/-- C3 witness: one `response.text` event, bare-array framed versus
SSE-framed, plus the single-object body. -/
theorem c3_fallback_framing_witness :
    decodeBody "[\x7b\"event\": \"response.text\", \"data\": \x7b\"text\": \"Hi\"\x7d\x7d]".data
      = decodeBody (joinBlank
          (["\x7b\"event\": \"response.text\", \"data\": \x7b\"text\": \"Hi\"\x7d\x7d".data].map
            (fun s => dataColon ++ ' ' :: s)))
    ∧ decodeBody "\x7b\"event\": \"response.text\", \"data\": \x7b\"text\": \"Hi\"\x7d\x7d".data
        = finalizeEvents
            [.obj [("event", .str "response.text"), ("data", .obj [("text", .str "Hi")])]] :=
  have h := c3_fallback_framing
    [.obj [("event", .str "response.text"), ("data", .obj [("text", .str "Hi")])]]
    ["\x7b\"event\": \"response.text\", \"data\": \x7b\"text\": \"Hi\"\x7d\x7d".data]
    "[\x7b\"event\": \"response.text\", \"data\": \x7b\"text\": \"Hi\"\x7d\x7d]".data
    (List.Forall₂.cons (And.intro rfl (And.intro rfl rfl)) List.Forall₂.nil)
    rfl rfl rfl (List.cons_ne_nil _ _)
  And.intro h.1 (h.2 _ _ rfl rfl rfl)
